import Mathlib

/-!
Shallow embedding of the cronbeats-go ping SDK (package `cronbeatsgo`).

The embedding follows the Go source: `NewPingClient`, the action methods
(`Ping`, `Start`, `End`, `Progress`), the retry loop `request`, the helpers
`mapError`, `safeJSON`, `normalizeSuccess`, `floatOrZero`, `sleepWithBackoff`,
`defaultString`, `defaultInt`, `maxInt`.

Modelling conventions:
* Go `int` is embedded as `ℤ` (no overflow is reachable in this SDK).
* A decoded JSON value (`encoding/json` unmarshalled into `any`) is embedded
  as `Jval`; JSON numbers all decode to Go `float64`, embedded here as `ℚ`
  (exact arithmetic; every literal in the claims is exactly representable).
* The raw HTTP body is a string in Go which `safeJSON` feeds to
  `json.Unmarshal`; the embedding carries the parse outcome directly:
  `none` stands for a body that is not valid JSON, `some v` for a body that
  decodes to the value `v`.
* The injected transport (`HttpClient.Request`) is an oracle indexed by the
  number of calls already made; the request's method, URL, headers, payload
  and timeout do not influence the client's control flow, so the oracle
  abstracts over them.
* The random generator (`rand.Rand.Intn`) is an oracle `ℕ → ℕ`; `Intn n`
  returns a value in `[0, n)`.
* Go strings are byte strings: `len` and slicing (`msg[:255]`) count bytes,
  which the embedding renders through `String.toUTF8`.
-/

namespace Cronbeats

/-- Decoded JSON value, as produced by Go `encoding/json` unmarshalling into
`any`: JSON numbers become `float64` (embedded as `ℚ`), objects become
`map[string]any` (embedded as an association list with unique keys). -/
inductive Jval where
  | null : Jval
  | bool (b : Bool) : Jval
  | num (q : ℚ) : Jval
  | str (s : String) : Jval
  | arr (elems : List Jval) : Jval
  | obj (fields : List (String × Jval)) : Jval

/-- A decoded JSON object (`map[string]any`). -/
abbrev Jobj := List (String × Jval)

/-- `ApiErrorCode` constants from errors.go. -/
inductive ApiErrorCode where
  | CodeValidation : ApiErrorCode
  | CodeNotFound : ApiErrorCode
  | CodeRateLimit : ApiErrorCode
  | CodeServer : ApiErrorCode
  | CodeNetwork : ApiErrorCode
  | CodeUnknown : ApiErrorCode
deriving DecidableEq

/-- `PingSuccess` from the source: the normalized success shape. -/
structure PingSuccess where
  ok : Bool
  action : String
  jobKey : String
  timestamp : String
  processingTimeMs : ℚ
  nextExpected : Option String
  raw : Jobj

/-- The outcome of an action call: the `(*PingSuccess, error)` pair of the Go
methods, with the error side split into the concrete error types of
errors.go (`ValidationError`, and `ApiError` with its fields; an `ApiError`
with code `CodeNetwork` and no HTTP status is the network-failure error built
at request.go's transport-failure branch). -/
inductive Outcome where
  | success (r : PingSuccess) : Outcome
  | validationError (msg : String) : Outcome
  | apiError (code : ApiErrorCode) (httpStatus : Option ℤ) (retryable : Bool)
      (message : String) : Outcome

/-- `Options` from the source. The injected `HTTPClient` is not part of the
state: it is the transport oracle passed to the request functions. -/
structure Options where
  baseURL : String := ""
  timeoutMs : ℤ := 0
  maxRetries : ℤ := 0
  retryBackoffMs : ℤ := 0
  retryJitterMs : ℤ := 0
  userAgent : String := ""
deriving DecidableEq

/-- `PingClient` state (the `rng`, `sleep` and `httpClient` members are
oracles passed to the operations rather than stored state). -/
structure PingClient where
  baseURL : String
  jobKey : String
  timeoutMs : ℤ
  maxRetries : ℤ
  retryBackoffMs : ℤ
  retryJitterMs : ℤ
  userAgent : String
deriving DecidableEq

/-- `ProgressOptions` from the source; `Seq *int` is an optional integer. -/
structure ProgressOptions where
  seq : Option ℤ := none
  message : String := ""

/-- The dynamic (`any`) argument of `Progress`: `nil`, an `int`, a
`ProgressOptions` value, a `*ProgressOptions` pointer (possibly nil), or any
other shape (the `default` case of the Go type switch). -/
inductive ProgressInput where
  | noInput : ProgressInput
  | intSeq (v : ℤ) : ProgressInput
  | options (v : ProgressOptions) : ProgressInput
  | optionsPtr (v : Option ProgressOptions) : ProgressInput
  | otherShape : ProgressInput

/-- One transport invocation's result: either a transport-level failure
(carrying the Go error's message) or a completed HTTP response. The body is
carried as its JSON parse outcome (see module docstring). -/
inductive TransportResult where
  | failure (err : String) : TransportResult
  | response (status : ℤ) (body : Option Jval) : TransportResult

/-- Whitespace class of Go `unicode.IsSpace` restricted to ASCII (the only
whitespace reachable from the claims): space, tab, newline, vertical tab,
form feed, carriage return. -/
def goSpaceChar (ch : Char) : Bool :=
  ch = ' ' || ch = '\t' || ch = '\n' || ch = '\x0b' || ch = '\x0c' || ch = '\r'

/-- Go `strings.TrimSpace`: drop leading and trailing whitespace. -/
def goTrimSpace (s : String) : String :=
  String.mk (((s.toList.dropWhile goSpaceChar).reverse.dropWhile goSpaceChar).reverse)

/-- Go `strings.TrimRight` with a one-character cutset: drop every trailing
occurrence of `cut`. -/
def goTrimRight (s : String) (cut : Char) : String :=
  String.mk ((s.toList.reverse.dropWhile (fun ch => ch = cut)).reverse)

/-- Go `strings.ToLower` on the ASCII range (the status strings the check
compares against are ASCII). -/
def goToLower (s : String) : String :=
  String.mk (s.toList.map Char.toLower)

/-- The UTF-8 bytes of a Go string: Go strings are byte strings and `len` /
slicing operate on these bytes. -/
def goBytes (s : String) : List UInt8 :=
  s.data.flatMap String.utf8EncodeChar

/-- Membership in the character class of `jobKeyRegex`, i.e. `[a-zA-Z0-9]`. -/
def jobKeyChar (ch : Char) : Bool :=
  ('a' ≤ ch && ch ≤ 'z') || ('A' ≤ ch && ch ≤ 'Z') || ('0' ≤ ch && ch ≤ '9')

/-- `jobKeyRegex.MatchString` for the anchored pattern `^[a-zA-Z0-9]{8}$`:
the string is exactly 8 characters, each in the class. -/
def jobKeyMatches (s : String) : Bool :=
  s.toList.length = 8 && s.toList.all jobKeyChar

/-- `defaultString` from the source. -/
def defaultString (v : String) (fallback : String) : String :=
  if goTrimSpace v = "" then fallback else v

/-- `defaultInt` from the source. -/
def defaultInt (v : ℤ) (fallback : ℤ) : ℤ :=
  if v = 0 then fallback else v

/-- `maxInt` from the source. -/
def maxInt (a : ℤ) (b : ℤ) : ℤ :=
  if a > b then a else b

/-- `NewPingClient` from the source. The construction error is the
`ValidationError` with the message below; `Except.error` carries its
message. -/
def NewPingClient (jobKey : String) (opts : Option Options) :
    Except String PingClient :=
  if ¬ jobKeyMatches jobKey then
    Except.error "jobKey must be exactly 8 Base62 characters."
  else
    let options := match opts with
      | some o => o
      | none => {}
    Except.ok {
      baseURL := goTrimRight (defaultString options.baseURL "https://cronbeats.io") '/'
      jobKey := jobKey
      timeoutMs := defaultInt options.timeoutMs 5000
      maxRetries := defaultInt options.maxRetries 2
      retryBackoffMs := defaultInt options.retryBackoffMs 250
      retryJitterMs := defaultInt options.retryJitterMs 100
      userAgent := defaultString options.userAgent "cronbeats-go-sdk/0.1.0"
    }

/-- `mapError` from the source. -/
def mapError (status : ℤ) : ApiErrorCode × Bool :=
  if status = 400 then (ApiErrorCode.CodeValidation, false)
  else if status = 404 then (ApiErrorCode.CodeNotFound, false)
  else if status = 429 then (ApiErrorCode.CodeRateLimit, true)
  else if status ≥ 500 then (ApiErrorCode.CodeServer, true)
  else (ApiErrorCode.CodeUnknown, false)

/-- `safeJSON` from the source, over the parse outcome of the raw body:
a parse failure (`none`) or a non-object top-level value is replaced by the
minimal object; an object's fields pass through. -/
def safeJSON (decoded : Option Jval) : Jobj :=
  match decoded with
  | some (Jval.obj fields) => fields
  | _ => [("message", Jval.str "Invalid JSON response")]

/-- Go string-typed field access `payload[key].(string)`: the comma-ok type
assertion yields `""` when the key is absent or the value is not a string. -/
def stringField (payload : Jobj) (key : String) : String :=
  match List.lookup key payload with
  | some (Jval.str s) => s
  | _ => ""

/-- Decimal digit test (`'0' <= c && c <= '9'`). -/
def isDecDigit (ch : Char) : Bool :=
  '0' ≤ ch && ch ≤ '9'

/-- Hexadecimal digit test. -/
def isHexDigit (ch : Char) : Bool :=
  isDecDigit ch || ('a' ≤ ch && ch ≤ 'f') || ('A' ≤ ch && ch ≤ 'F')

/-- Numeric value of a (decimal or hexadecimal) digit character. -/
def hexVal (ch : Char) : ℕ :=
  if isDecDigit ch then ch.toNat - '0'.toNat
  else if 'a' ≤ ch && ch ≤ 'f' then ch.toNat - 'a'.toNat + 10
  else ch.toNat - 'A'.toNat + 10

/-- Value of a digit run in the given base. -/
def digitsVal (base : ℕ) (ds : List Char) : ℕ :=
  ds.foldl (fun acc d => acc * base + hexVal d) 0

/-- The run of characters satisfying `p` and the rest. -/
def spanChars (p : Char → Bool) (cs : List Char) : List Char × List Char :=
  (cs.takeWhile p, cs.dropWhile p)

/-- `ss.accept` of fmt's scanner for a one-character class: consume the next
character when it belongs to `allowed`. -/
def acceptOne (allowed : List Char) (cs : List Char) : Option Char × List Char :=
  match cs with
  | c :: rest => if allowed.contains c then (some c, rest) else (none, cs)
  | [] => (none, [])

/-- The whitespace table of the fmt package (`isSpace` in scan.go). -/
def fmtSpace (ch : Char) : Bool :=
  ('\x09' ≤ ch && ch ≤ '\x0d') || ch = ' ' || ch = '\x85' || ch = '\xa0' ||
  ch = '\u1680' || ('\u2000' ≤ ch && ch ≤ '\u200a') || ch = '\u2028' ||
  ch = '\u2029' || ch = '\u202f' || ch = '\u205f' || ch = '\u3000'

/-- `ss.SkipSpace` as invoked by `Sscanf` (`nlIsSpace = false`): skip
whitespace before the token, but a newline in the input is a scan error
(`"unexpected newline"`); a lone carriage return is skipped as space, while
a carriage return followed by a newline is the error case. `none` is the
scan error. -/
def fmtSkipSpace : List Char → Option (List Char)
  | [] => some []
  | c :: rest =>
    if c = '\n' then none
    else if fmtSpace c then fmtSkipSpace rest
    else some (c :: rest)

/-- Token-digit class of `floatToken`: the digits of the active base plus
the underscore digit separator. -/
def isTokenDigit (hex : Bool) (ch : Char) : Bool :=
  (if hex then isHexDigit ch else isDecDigit ch) || ch = '_'

/-- The exponent part of `floatToken`: an exponent character from
`expChars`, an optional sign, then decimal digits and separators. -/
def floatTokenExp (expChars : List Char) (cs0 : List Char) : List Char :=
  match acceptOne expChars cs0 with
  | (some ec, cs1) =>
    let sgPart := acceptOne ['+', '-'] cs1
    let eds := (spanChars (fun ch => isDecDigit ch || ch = '_') sgPart.2).1
    match sgPart.1 with
    | some sc => ec :: sc :: eds
    | none => ec :: eds
  | (none, _) => []

/-- The digit tail of `floatToken`: digits, an optional decimal point with
fraction digits, and an optional exponent. -/
def floatTokenTail (hex : Bool) (expChars : List Char) (cs0 : List Char) :
    List Char :=
  let intPart := spanChars (isTokenDigit hex) cs0
  match acceptOne ['.'] intPart.2 with
  | (some dc, cs2) =>
    let fracPart := spanChars (isTokenDigit hex) cs2
    intPart.1 ++ dc :: (fracPart.1 ++ floatTokenExp expChars fracPart.2)
  | (none, cs1) => intPart.1 ++ floatTokenExp expChars cs1

/-- The number body of `floatToken`: an optional `0x`/`0X` base prefix
switches to hexadecimal digits with a `p`/`P` exponent; otherwise decimal
digits with an `e`/`E`/`p`/`P` exponent. -/
def floatTokenNumber (cs0 : List Char) : List Char :=
  match acceptOne ['0'] cs0 with
  | (some zc, cs1) =>
    match acceptOne ['x', 'X'] cs1 with
    | (some xc, cs2) => zc :: xc :: floatTokenTail true ['p', 'P'] cs2
    | (none, _) => zc :: floatTokenTail false ['e', 'E', 'p', 'P'] cs1
  | (none, _) => floatTokenTail false ['e', 'E', 'p', 'P'] cs0

/-- The signed part of `floatToken`: optional sign, the early `Inf` return
(with its partial-match fallthrough, which keeps the consumed characters in
the token), then the number body. -/
def floatTokenSigned (cs0 : List Char) : List Char :=
  let sgPart := acceptOne ['+', '-'] cs0
  let sgl : List Char := match sgPart.1 with
    | some c => [c]
    | none => []
  match acceptOne ['i', 'I'] sgPart.2 with
  | (some c1, cs2) =>
    match acceptOne ['n', 'N'] cs2 with
    | (some c2, cs3) =>
      match acceptOne ['f', 'F'] cs3 with
      | (some c3, _) => sgl ++ [c1, c2, c3]
      | (none, _) => sgl ++ c1 :: c2 :: floatTokenNumber cs3
    | (none, _) => sgl ++ c1 :: floatTokenNumber cs2
  | (none, _) => sgl ++ floatTokenNumber sgPart.2

/-- `ss.floatToken` from fmt's scan.go: the maximal float-shaped token
starting here, with the early `NaN` return (and its partial-match
fallthrough), the sign, the early `Inf` return, and the base-switched
number body. Syntax is not validated here; `goParseFloat` is. -/
def floatToken (cs0 : List Char) : List Char :=
  match acceptOne ['n', 'N'] cs0 with
  | (some c1, cs1) =>
    match acceptOne ['a', 'A'] cs1 with
    | (some c2, cs2) =>
      match acceptOne ['n', 'N'] cs2 with
      | (some c3, _) => [c1, c2, c3]
      | (none, _) => c1 :: c2 :: floatTokenSigned cs2
    | (none, _) => c1 :: floatTokenSigned cs1
  | (none, _) => floatTokenSigned cs0

/-- The state loop of strconv's `underscoreOK`: `saw` is the class of the
previous character (start, digit or base prefix, underscore, other). -/
def underscoreScan (hex : Bool) : Char → List Char → Bool
  | saw, [] => saw ≠ '_'
  | saw, c :: rest =>
    if isDecDigit c || (hex && (('a' ≤ c && c ≤ 'f') || ('A' ≤ c && c ≤ 'F'))) then
      underscoreScan hex '0' rest
    else if c = '_' then
      saw = '0' && underscoreScan hex '_' rest
    else if saw = '_' then false
    else underscoreScan hex '!' rest

/-- strconv's `underscoreOK` (atof.go): underscores may appear only between
successive digits, or between a base prefix and a digit. -/
def underscoreOK (tok : List Char) : Bool :=
  let cs := match tok with
    | c :: rest => if c = '-' || c = '+' then rest else tok
    | [] => tok
  match cs with
  | z :: x :: rest =>
    if z = '0' && (x = 'b' || x = 'B' || x = 'o' || x = 'O' || x = 'x' || x = 'X') then
      underscoreScan (x = 'x' || x = 'X') '0' rest
    else underscoreScan false '^' cs
  | _ => underscoreScan false '^' cs

/-- A finite float value as parsed from a token, before evaluation:
`± (mant / mantBase ^ scale) * 10 ^ exp10 * 2 ^ exp2`. Decimal values use
`mantBase = 10` (`exp2` from fmt's p-notation), hexadecimal floats use
`mantBase = 16` with the binary exponent in `exp2`. -/
structure FloatVal where
  neg : Bool
  mant : ℕ
  mantBase : ℕ
  scale : ℕ
  exp10 : ℤ
  exp2 : ℤ
deriving DecidableEq

/-- Exact rational value of a parsed float. The Go code rounds this value to
the nearest `float64`; the embedding keeps it exact, consistently with the
`ℚ` convention for JSON numbers. -/
def evalFloatVal (v : FloatVal) : ℚ :=
  let m : ℚ := (v.mant : ℚ) / (v.mantBase : ℚ) ^ v.scale
  let val := m * (10 : ℚ) ^ v.exp10 * (2 : ℚ) ^ v.exp2
  if v.neg then -val else val

/-- Mantissa of the given base: `digits [. digits]` with at least one digit;
returns the digit value, the fraction length, and the rest. -/
def parseMantissa (base : ℕ) (digitP : Char → Bool) (cs0 : List Char) :
    Option (ℕ × ℕ × List Char) :=
  let intPart := spanChars digitP cs0
  match intPart.2 with
  | '.' :: cs2 =>
    let fracPart := spanChars digitP cs2
    if intPart.1 = [] ∧ fracPart.1 = [] then none
    else some (digitsVal base (intPart.1 ++ fracPart.1), fracPart.1.length, fracPart.2)
  | _ =>
    if intPart.1 = [] then none
    else some (digitsVal base intPart.1, 0, intPart.2)

/-- Exponent part: when a character from `expChars` is present, an optional
sign and at least one decimal digit are required. -/
def parseExpPart (expChars : List Char) (cs0 : List Char) :
    Option (ℤ × List Char) :=
  match acceptOne expChars cs0 with
  | (some _, cs1) =>
    let sgPart := acceptOne ['+', '-'] cs1
    let edsPart := spanChars isDecDigit sgPart.2
    if edsPart.1 = [] then none
    else some ((if sgPart.1 = some '-' then -(digitsVal 10 edsPart.1 : ℤ)
      else (digitsVal 10 edsPart.1 : ℤ)), edsPart.2)
  | (none, _) => some (0, cs0)

/-- Decimal branch of `goParseFloat`: mantissa, optional `e`/`E` exponent,
full consumption. -/
def goParseFloatDec (neg : Bool) (cs : List Char) : Option FloatVal :=
  match parseMantissa 10 isDecDigit cs with
  | none => none
  | some (m, sc, cs1) =>
    match parseExpPart ['e', 'E'] cs1 with
    | none => none
    | some (e, cs2) =>
      if cs2 ≠ [] then none
      else some ⟨neg, m, 10, sc, e, 0⟩

/-- strconv's `ParseFloat` on a token, for finite values: underscore
validation and stripping, optional sign, hexadecimal floats (`0x` mantissa
with a mandatory binary `p`/`P` exponent) and decimal floats (optional
`e`/`E` decimal exponent); the whole token must be consumed. The special
values (`Inf`, `Infinity`, `NaN`, any case, which Go parses to non-finite
floats) are outside the exact-arithmetic embedding and map to `none`. -/
def goParseFloat (tok : List Char) : Option FloatVal :=
  if tok.contains '_' ∧ underscoreOK tok = false then none
  else
    let cs0 := tok.filter (fun ch => ch ≠ '_')
    let sgPart := acceptOne ['+', '-'] cs0
    let neg := sgPart.1 = some '-'
    let low := sgPart.2.map Char.toLower
    if low = ['i', 'n', 'f'] ∨ low = ['i', 'n', 'f', 'i', 'n', 'i', 't', 'y'] ∨
        low = ['n', 'a', 'n'] then none
    else
      match sgPart.2 with
      | '0' :: x :: cs2 =>
        if x = 'x' ∨ x = 'X' then
          match parseMantissa 16 isHexDigit cs2 with
          | none => none
          | some (m, sc, cs3) =>
            match acceptOne ['p', 'P'] cs3 with
            | (some _, cs4) =>
              let sgE := acceptOne ['+', '-'] cs4
              let edsPart := spanChars isDecDigit sgE.2
              if edsPart.1 = [] ∨ edsPart.2 ≠ [] then none
              else some ⟨neg, m, 16, sc, 0,
                if sgE.1 = some '-' then -(digitsVal 10 edsPart.1 : ℤ)
                else (digitsVal 10 edsPart.1 : ℤ)⟩
            | (none, _) => none
        else
          goParseFloatDec neg sgPart.2
      | _ => goParseFloatDec neg sgPart.2

/-- strconv's `Atoi` (`ParseInt` base 10): optional sign, at least one
decimal digit, no separators, full consumption. -/
def goAtoi (cs0 : List Char) : Option ℤ :=
  let sgPart := acceptOne ['+', '-'] cs0
  let dsPart := spanChars isDecDigit sgPart.2
  if dsPart.1 = [] ∨ dsPart.2 ≠ [] then none
  else some (if sgPart.1 = some '-' then -(digitsVal 10 dsPart.1 : ℤ)
    else (digitsVal 10 dsPart.1 : ℤ))

/-- fmt's `convertFloat`: a token containing a lowercase `p` but no
`x`/`X` is split at the `p` — the prefix goes through `ParseFloat`, the
suffix through `Atoi`, and the result is `Ldexp(prefix, suffix)` (a
power-of-two exponent on a decimal mantissa); every other token goes to
`ParseFloat` whole. -/
def convertFloat (tok : List Char) : Option FloatVal :=
  if tok.contains 'p' ∧ ¬ (tok.contains 'x' ∨ tok.contains 'X') then
    let pre := tok.takeWhile (fun ch => ch ≠ 'p')
    let post := (tok.dropWhile (fun ch => ch ≠ 'p')).drop 1
    match goParseFloat pre, goAtoi post with
    | some v, some m => some { v with exp2 := v.exp2 + m }
    | _, _ => none
  else goParseFloat tok

/-- Models `fmt.Sscanf(x, "%f", &f)`: skip leading whitespace per the fmt
scanner (a newline is a scan error), extract the maximal float token
(`floatToken`), convert it (`convertFloat`); a scan or conversion error is
`none`, and the code then falls through to `0`. Trailing input after the
token is ignored, as `Sscanf` ignores unconsumed input. The only deviations
are the non-finite values (Inf/NaN map to `none`) and exact rational
evaluation in place of `float64` rounding, both inherent to the `ℚ`
embedding. -/
def parseGoFloat (s : String) : Option ℚ :=
  match fmtSkipSpace s.toList with
  | none => none
  | some cs => (convertFloat (floatToken cs)).map evalFloatVal

/-- `floatOrZero` from the source, over the values reachable from `safeJSON`
output: decoded JSON numbers are Go `float64` (the `float64` case), strings
go through the `Sscanf` case; the `int`/`int32`/`int64`/`float32`/
`json.Number` cases of the Go switch are unreachable from decoded JSON and
collapse into the number case. `none` is Go `nil` (absent map key), which
falls through every case to `0`. -/
def floatOrZero (v : Option Jval) : ℚ :=
  match v with
  | some (Jval.num q) => q
  | some (Jval.str s) =>
    match parseGoFloat s with
    | some f => f
    | none => 0
  | _ => 0

/-- `normalizeSuccess` from the source. -/
def normalizeSuccess (c : PingClient) (action : String) (payload : Jobj) :
    PingSuccess :=
  let outAction0 := stringField payload "action"
  let outAction := if outAction0 = "" then action else outAction0
  let outJobKey0 := stringField payload "job_key"
  let outJobKey := if outJobKey0 = "" then c.jobKey else outJobKey0
  let timestamp := stringField payload "timestamp"
  let nextExpected : Option String := match List.lookup "next_expected" payload with
    | some (Jval.str s) => some s
    | _ => none
  { ok := true
    action := outAction
    jobKey := outJobKey
    timestamp := timestamp
    processingTimeMs := floatOrZero (List.lookup "processing_time_ms" payload)
    nextExpected := nextExpected
    raw := payload }

/-- `sleepWithBackoff` from the source: the wait in milliseconds passed to
`sleep`. The Go code computes the base through `float64`/`math.Pow`, exact
for every product below `2^53`; the embedding computes it exactly. `randIntn`
is the `rng.Intn` oracle. -/
def sleepWithBackoff (c : PingClient) (attempt : ℤ) (randIntn : ℕ → ℕ) : ℤ :=
  let baseMs : ℤ := c.retryBackoffMs * 2 ^ (maxInt 0 (attempt - 1)).toNat
  let jitter : ℤ := if c.retryJitterMs > 0 then (randIntn (c.retryJitterMs + 1).toNat : ℤ) else 0
  baseMs + jitter

/-- The `message` extraction at request.go lines 213–216:
`msg, _ := parsed["message"].(string); if msg == "" then "Request failed"`. -/
def responseMessage (parsed : Jobj) : String :=
  let msg := stringField parsed "message"
  if msg = "" then "Request failed" else msg

/-- The retry loop body of `request` (request.go lines 179–233). `callIdx`
counts transport invocations already made, `attempt` is the Go `attempt`
counter (retries performed so far). Returns the outcome together with the
number of transport invocations performed from this point on. -/
def requestLoop (c : PingClient) (transport : ℕ → TransportResult)
    (action : String) (callIdx : ℕ) (attempt : ℤ) : Outcome × ℕ :=
  match transport callIdx with
  | TransportResult.failure err =>
    if h : attempt ≥ c.maxRetries then
      (Outcome.apiError ApiErrorCode.CodeNetwork none true err, 1)
    else
      ((requestLoop c transport action (callIdx + 1) (attempt + 1)).1,
        (requestLoop c transport action (callIdx + 1) (attempt + 1)).2 + 1)
  | TransportResult.response status rawBody =>
    let parsed := safeJSON rawBody
    if 200 ≤ status ∧ status < 300 then
      (Outcome.success (normalizeSuccess c action parsed), 1)
    else
      if h : (mapError status).2 = true ∧ attempt < c.maxRetries then
        ((requestLoop c transport action (callIdx + 1) (attempt + 1)).1,
          (requestLoop c transport action (callIdx + 1) (attempt + 1)).2 + 1)
      else
        (Outcome.apiError (mapError status).1 (some status) (mapError status).2
          (responseMessage parsed), 1)
termination_by (c.maxRetries - attempt).toNat
decreasing_by
all_goals
  first
  | (simp only [not_le] at h; omega)
  | (obtain ⟨_h1, h2⟩ := h; omega)

/-- `request` from the source: one action call, starting the loop with
`attempt := 0` and no transport invocations made yet. The URL path and the
encoded body are passed to the transport in Go but do not influence the
client's control flow; `json.Marshal` of a string-keyed map of strings
cannot fail, so the payload-encoding error branch is unreachable. -/
def request (c : PingClient) (transport : ℕ → TransportResult)
    (action : String) (_path : String) (_body : List (String × List UInt8)) :
    Outcome × ℕ :=
  requestLoop c transport action 0 0

/-- `Ping` from the source. -/
def Ping (c : PingClient) (transport : ℕ → TransportResult) : Outcome × ℕ :=
  request c transport "ping" ("/ping/" ++ c.jobKey) []

/-- `Start` from the source. -/
def Start (c : PingClient) (transport : ℕ → TransportResult) : Outcome × ℕ :=
  request c transport "start" ("/ping/" ++ c.jobKey ++ "/start") []

/-- `End` from the source. The pair's second component is the number of
transport invocations. -/
def End (c : PingClient) (transport : ℕ → TransportResult) (status : String) :
    Outcome × ℕ :=
  let statusValue0 := goToLower (goTrimSpace status)
  let statusValue := if statusValue0 = "" then "success" else statusValue0
  if statusValue ≠ "success" ∧ statusValue ≠ "fail" then
    (Outcome.validationError "Status must be \"success\" or \"fail\".", 0)
  else
    request c transport "end" ("/ping/" ++ c.jobKey ++ "/end/" ++ statusValue) []

/-- `Success` from the source. -/
def Success (c : PingClient) (transport : ℕ → TransportResult) : Outcome × ℕ :=
  End c transport "success"

/-- `Fail` from the source. -/
def Fail (c : PingClient) (transport : ℕ → TransportResult) : Outcome × ℕ :=
  End c transport "fail"

/-- Go string truncation `if len(msg) > 255 then msg[:255]` followed by
transmission: Go strings are byte strings, so the length test and the slice
operate on the UTF-8 bytes of the message. -/
def truncated255 (msg : String) : List UInt8 :=
  let bytes := goBytes msg
  if bytes.length > 255 then bytes.take 255 else bytes

/-- What a `Progress` call sends: either the validation error raised before
any network activity, or the path and JSON body handed to `request`
(request.go lines 116–165 up to the `c.request` call). The body's `message`
value is the possibly-truncated message as transmitted bytes. -/
inductive ProgressCall where
  | invalid (msg : String) : ProgressCall
  | send (path : String) (body : List (String × List UInt8)) : ProgressCall
deriving DecidableEq

/-- The argument processing of `Progress`: the type switch on `input`, the
sequence validation, the message truncation, and the choice of path and
body. `message` is the Go variadic `message ...string`. -/
def progressPlan (jobKey : String) (input : ProgressInput)
    (message : List String) : ProgressCall :=
  let msg0 := match message with
    | m :: _ => m
    | [] => ""
  let step : Option (ℤ × Bool × String) := match input with
    | ProgressInput.noInput => some (-1, false, msg0)
    | ProgressInput.intSeq v => some (v, true, msg0)
    | ProgressInput.options v =>
      let seq := match v.seq with
        | some s => s
        | none => -1
      let msg := if goTrimSpace v.message ≠ "" ∨ msg0 = "" then v.message else msg0
      some (seq, v.seq.isSome, msg)
    | ProgressInput.optionsPtr none => some (-1, false, msg0)
    | ProgressInput.optionsPtr (some v) =>
      let seq := match v.seq with
        | some s => s
        | none => -1
      let msg := if goTrimSpace v.message ≠ "" ∨ msg0 = "" then v.message else msg0
      some (seq, v.seq.isSome, msg)
    | ProgressInput.otherShape => none
  match step with
  | none => ProgressCall.invalid "Progress input must be int, ProgressOptions, or nil."
  | some (seq, seqProvided, msg) =>
    if seqProvided ∧ seq < 0 then
      ProgressCall.invalid "Progress seq must be a non-negative integer."
    else
      let out := truncated255 msg
      if seqProvided then
        ProgressCall.send ("/ping/" ++ jobKey ++ "/progress/" ++ toString seq)
          [("message", out)]
      else
        ProgressCall.send ("/ping/" ++ jobKey ++ "/progress") [("message", out)]

/-- `Progress` from the source: validation and request building via
`progressPlan`, then the shared `request` pipeline. -/
def Progress (c : PingClient) (transport : ℕ → TransportResult)
    (input : ProgressInput) (message : List String) : Outcome × ℕ :=
  match progressPlan c.jobKey input message with
  | ProgressCall.invalid m => (Outcome.validationError m, 0)
  | ProgressCall.send path body => request c transport "progress" path body

/-! Step lemmas: one unfolding of the retry loop per transport result. -/

/-- Transport failure with the retry budget exhausted: the loop stops with
the network error after this single invocation. -/
theorem requestLoop_fail_stop (c : PingClient) (t : ℕ → TransportResult)
    (action : String) (k : ℕ) (a : ℤ) (e : String)
    (ht : t k = TransportResult.failure e) (hge : a ≥ c.maxRetries) :
    requestLoop c t action k a =
      (Outcome.apiError ApiErrorCode.CodeNetwork none true e, 1) := by
  rw [requestLoop, ht]
  simp [hge]

/-- Transport failure with retries remaining: the loop recurses with the
attempt counter bumped, adding one invocation. -/
theorem requestLoop_fail_retry (c : PingClient) (t : ℕ → TransportResult)
    (action : String) (k : ℕ) (a : ℤ) (e : String)
    (ht : t k = TransportResult.failure e) (hlt : a < c.maxRetries) :
    requestLoop c t action k a =
      ((requestLoop c t action (k + 1) (a + 1)).1,
        (requestLoop c t action (k + 1) (a + 1)).2 + 1) := by
  rw [requestLoop, ht]
  simp [not_le.mpr hlt]

/-- A 2xx response ends the loop at once with the normalized success. -/
theorem requestLoop_success (c : PingClient) (t : ℕ → TransportResult)
    (action : String) (k : ℕ) (a : ℤ) (st : ℤ) (rb : Option Jval)
    (ht : t k = TransportResult.response st rb) (h1 : 200 ≤ st) (h2 : st < 300) :
    requestLoop c t action k a =
      (Outcome.success (normalizeSuccess c action (safeJSON rb)), 1) := by
  rw [requestLoop, ht]
  simp [h1, h2]

/-- A non-2xx retryable response with retries remaining: the loop recurses
with the attempt counter bumped, adding one invocation. -/
theorem requestLoop_http_retry (c : PingClient) (t : ℕ → TransportResult)
    (action : String) (k : ℕ) (a : ℤ) (st : ℤ) (rb : Option Jval)
    (ht : t k = TransportResult.response st rb) (hn : ¬ (200 ≤ st ∧ st < 300))
    (hr : (mapError st).2 = true) (hlt : a < c.maxRetries) :
    requestLoop c t action k a =
      ((requestLoop c t action (k + 1) (a + 1)).1,
        (requestLoop c t action (k + 1) (a + 1)).2 + 1) := by
  rw [requestLoop, ht]
  simp [hn, hr, hlt]

/-- A non-2xx response that is not retried (not retryable, or the budget is
exhausted): the loop stops with the mapped API error. -/
theorem requestLoop_http_stop (c : PingClient) (t : ℕ → TransportResult)
    (action : String) (k : ℕ) (a : ℤ) (st : ℤ) (rb : Option Jval)
    (ht : t k = TransportResult.response st rb) (hn : ¬ (200 ≤ st ∧ st < 300))
    (hstop : ¬ ((mapError st).2 = true ∧ a < c.maxRetries)) :
    requestLoop c t action k a =
      (Outcome.apiError (mapError st).1 (some st) (mapError st).2
        (responseMessage (safeJSON rb)), 1) := by
  rw [requestLoop, ht]
  simp only [safeJSON]
  rw [if_neg hn, dif_neg hstop]

/-- Run of the loop against a transport whose first `N` results are failures
or retryable HTTP errors and whose `N`-th result is a 2xx response: from any
aligned state (`callIdx = attempt = k`, `k ≤ N`) the loop succeeds after
`N - k + 1` further invocations, provided the retry budget covers `N`. -/
theorem requestLoop_fail_then_success (c : PingClient) (t : ℕ → TransportResult)
    (action : String) (N : ℕ)
    (hN : (N : ℤ) ≤ c.maxRetries)
    (hfail : ∀ k, k < N → (∃ e, t k = TransportResult.failure e) ∨
      ∃ st rb, t k = TransportResult.response st rb ∧ ¬ (200 ≤ st ∧ st < 300) ∧
        (mapError st).2 = true)
    (st : ℤ) (rb : Option Jval)
    (hsucc : t N = TransportResult.response st rb) (h1 : 200 ≤ st) (h2 : st < 300) :
    ∀ (d k : ℕ), k + d = N →
      requestLoop c t action k (k : ℤ) =
        (Outcome.success (normalizeSuccess c action (safeJSON rb)), d + 1) := by
  intro d
  induction d with
  | zero =>
    intro k hk
    have hkN : k = N := by omega
    subst hkN
    exact requestLoop_success c t action k (k : ℤ) st rb hsucc h1 h2
  | succ d ih =>
    intro k hk
    have hkN : k < N := by omega
    have hlt : (k : ℤ) < c.maxRetries := by omega
    have hcast : ((k : ℤ) + 1) = ((k + 1 : ℕ) : ℤ) := by push_cast; ring
    rcases hfail k hkN with ⟨e, he⟩ | ⟨st', rb', hres, hn, hr⟩
    · rw [requestLoop_fail_retry c t action k (k : ℤ) e he hlt, hcast,
        ih (k + 1) (by omega)]
    · rw [requestLoop_http_retry c t action k (k : ℤ) st' rb' hres hn hr hlt, hcast,
        ih (k + 1) (by omega)]

/-- The retry loop never produces a `ValidationError`: its outcomes are only
the normalized success and `ApiError` values. Stated over a budget bound for
the induction. -/
theorem requestLoop_no_validation (c : PingClient) (t : ℕ → TransportResult)
    (action : String) :
    ∀ (n : ℕ) (k : ℕ) (a : ℤ), (c.maxRetries - a).toNat ≤ n →
      ∀ m, (requestLoop c t action k a).1 ≠ Outcome.validationError m := by
  intro n
  induction n with
  | zero =>
    intro k a ha m
    have hge : a ≥ c.maxRetries := by omega
    cases hres : t k with
    | failure e =>
      rw [requestLoop_fail_stop c t action k a e hres hge]
      exact fun h => Outcome.noConfusion h
    | response st rb =>
      by_cases h2 : 200 ≤ st ∧ st < 300
      · rw [requestLoop_success c t action k a st rb hres h2.1 h2.2]
        exact fun h => Outcome.noConfusion h
      · rw [requestLoop_http_stop c t action k a st rb hres h2
          (fun hh => absurd hh.2 (not_lt.mpr hge))]
        exact fun h => Outcome.noConfusion h
  | succ n ih =>
    intro k a ha m
    cases hres : t k with
    | failure e =>
      by_cases hge : a ≥ c.maxRetries
      · rw [requestLoop_fail_stop c t action k a e hres hge]
        exact fun h => Outcome.noConfusion h
      · rw [requestLoop_fail_retry c t action k a e hres (by omega)]
        exact ih (k + 1) (a + 1) (by omega) m
    | response st rb =>
      by_cases h2 : 200 ≤ st ∧ st < 300
      · rw [requestLoop_success c t action k a st rb hres h2.1 h2.2]
        exact fun h => Outcome.noConfusion h
      · by_cases hra : (mapError st).2 = true ∧ a < c.maxRetries
        · rw [requestLoop_http_retry c t action k a st rb hres h2 hra.1 hra.2]
          exact ih (k + 1) (a + 1) (by omega) m
        · rw [requestLoop_http_stop c t action k a st rb hres h2 hra]
          exact fun h => Outcome.noConfusion h

/-- A sample client: the one `NewPingClient "abc123de" nil` constructs. -/
def cEx : PingClient :=
  ⟨"https://cronbeats.io", "abc123de", 5000, 2, 250, 100, "cronbeats-go-sdk/0.1.0"⟩

/-- A sample transport: one transport-level failure, then a 200 response
with an empty JSON object body. -/
def tEx1 : ℕ → TransportResult := fun k =>
  if k = 0 then TransportResult.failure "connection reset"
  else TransportResult.response 200 (some (Jval.obj []))

/-- C1: for every client and every transport that fails `N` times (transport
failure or retryable HTTP status) and then returns a 2xx status, if the
configured max retries is at least `N` then the action call returns the
normalized success result and the transport is invoked exactly `N + 1`
times; moreover a 2xx status ends the loop immediately at any attempt
count. -/
theorem c1_transport_failures_then_success (c : PingClient)
    (t : ℕ → TransportResult) (action path : String)
    (body : List (String × List UInt8)) (N : ℕ)
    (hN : (N : ℤ) ≤ c.maxRetries)
    (hfail : ∀ k, k < N → (∃ e, t k = TransportResult.failure e) ∨
      ∃ st rb, t k = TransportResult.response st rb ∧ ¬ (200 ≤ st ∧ st < 300) ∧
        (mapError st).2 = true)
    (st : ℤ) (rb : Option Jval)
    (hsucc : t N = TransportResult.response st rb) (h1 : 200 ≤ st) (h2 : st < 300) :
    request c t action path body =
      (Outcome.success (normalizeSuccess c action (safeJSON rb)), N + 1) ∧
    ∀ (k : ℕ) (a : ℤ) (st' : ℤ) (rb' : Option Jval),
      t k = TransportResult.response st' rb' → 200 ≤ st' → st' < 300 →
      requestLoop c t action k a =
        (Outcome.success (normalizeSuccess c action (safeJSON rb')), 1) := by
  constructor
  · have h := requestLoop_fail_then_success c t action N hN hfail st rb hsucc h1 h2
      N 0 (by omega)
    rw [request]
    simpa using h
  · intro k a st' rb' hres ha hb
    exact requestLoop_success c t action k a st' rb' hres ha hb

/-- Witness for C1: one failure then a 200 response, max retries 2 ≥ 1, so
the call succeeds with exactly 2 transport invocations. -/
theorem c1_transport_failures_then_success_witness :
    request cEx tEx1 "ping" "/ping/abc123de" [] =
      (Outcome.success (normalizeSuccess cEx "ping" (safeJSON (some (Jval.obj [])))),
        2) :=
  (c1_transport_failures_then_success cEx tEx1 "ping" "/ping/abc123de" [] 1
    (by decide)
    (fun k hk => Or.inl ⟨"connection reset", by
      have hk0 : k = 0 := by omega
      subst hk0
      rfl⟩)
    200 (some (Jval.obj [])) rfl (by decide) (by decide)).1

/-- A sample transport answering every request with HTTP 404 and an empty
JSON object body. -/
def tEx404 : ℕ → TransportResult := fun _ =>
  TransportResult.response 404 (some (Jval.obj []))

/-- A sample transport answering every request with HTTP 429 and an empty
JSON object body. -/
def tEx429 : ℕ → TransportResult := fun _ =>
  TransportResult.response 429 (some (Jval.obj []))

/-- Run of the loop against a transport that answers every call with the
same retryable non-2xx response: from any state the loop retries until the
budget is exhausted and then returns the mapped API error, after
`(maxRetries - attempt).toNat + 1` further invocations. -/
theorem requestLoop_retryable_exhausts (c : PingClient)
    (t : ℕ → TransportResult) (action : String) (st : ℤ) (rb : Option Jval)
    (hall : ∀ k, t k = TransportResult.response st rb)
    (hn : ¬ (200 ≤ st ∧ st < 300)) (hr : (mapError st).2 = true) :
    ∀ (n : ℕ) (k : ℕ) (a : ℤ), (c.maxRetries - a).toNat = n →
      requestLoop c t action k a =
        (Outcome.apiError (mapError st).1 (some st) (mapError st).2
          (responseMessage (safeJSON rb)), n + 1) := by
  intro n
  induction n with
  | zero =>
    intro k a ha
    exact requestLoop_http_stop c t action k a st rb (hall k) hn
      (fun hh => absurd hh.2 (by omega))
  | succ n ih =>
    intro k a ha
    rw [requestLoop_http_retry c t action k a st rb (hall k) hn hr (by omega),
      ih (k + 1) (a + 1) (by omega)]

/-- C2: non-2xx statuses are classified 400 → Validation (not retryable),
404 → NotFound (not retryable), 429 → RateLimited (retryable), ≥500 →
Server (retryable), every other non-2xx → Unknown (not retryable); a
non-retryable first response makes the call return, after exactly 1 request,
an API error carrying the mapped code, the numeric status, the retryable
flag, and the body-derived message, which falls back to "Request failed"
when the decoded body has no usable string message field; and when a
retryable response persists until the retry budget is exhausted, the call
returns the API error with its retryable flag true after the full
`maxRetries + 1` invocations. -/
theorem c2_status_classification (c : PingClient) (t : ℕ → TransportResult)
    (action path : String) (body : List (String × List UInt8))
    (st : ℤ) (rb : Option Jval)
    (hres : t 0 = TransportResult.response st rb)
    (hn : ¬ (200 ≤ st ∧ st < 300))
    (hnr : (mapError st).2 = false) :
    mapError 400 = (ApiErrorCode.CodeValidation, false) ∧
    mapError 404 = (ApiErrorCode.CodeNotFound, false) ∧
    mapError 429 = (ApiErrorCode.CodeRateLimit, true) ∧
    (∀ s : ℤ, 500 ≤ s → mapError s = (ApiErrorCode.CodeServer, true)) ∧
    (∀ s : ℤ, ¬ (200 ≤ s ∧ s < 300) → s ≠ 400 → s ≠ 404 → s ≠ 429 → s < 500 →
      mapError s = (ApiErrorCode.CodeUnknown, false)) ∧
    request c t action path body =
      (Outcome.apiError (mapError st).1 (some st) false
        (responseMessage (safeJSON rb)), 1) ∧
    (∀ (t2 : ℕ → TransportResult) (st2 : ℤ) (rb2 : Option Jval),
      (∀ k, t2 k = TransportResult.response st2 rb2) →
      ¬ (200 ≤ st2 ∧ st2 < 300) → (mapError st2).2 = true →
      request c t2 action path body =
        (Outcome.apiError (mapError st2).1 (some st2) true
          (responseMessage (safeJSON rb2)), c.maxRetries.toNat + 1)) ∧
    (∀ (parsed : Jobj) (s : String),
      List.lookup "message" parsed = some (Jval.str s) → s ≠ "" →
      responseMessage parsed = s) ∧
    (∀ parsed : Jobj,
      (List.lookup "message" parsed = none ∨
        List.lookup "message" parsed = some (Jval.str "") ∨
        ∃ v, List.lookup "message" parsed = some v ∧ ∀ s, v ≠ Jval.str s) →
      responseMessage parsed = "Request failed") := by
  refine ⟨by decide, by decide, by decide, ?_, ?_, ?_, ?_, ?_, ?_⟩
  · intro s hs
    simp only [mapError]
    rw [if_neg (by omega), if_neg (by omega), if_neg (by omega), if_pos (by omega)]
  · intro s hs h400 h404 h429 h500
    simp only [mapError]
    rw [if_neg h400, if_neg h404, if_neg h429, if_neg (by omega)]
  · rw [request, requestLoop_http_stop c t action 0 0 st rb hres hn
      (fun hh => by rw [hnr] at hh; exact Bool.false_ne_true hh.1), hnr]
  · intro t2 st2 rb2 hall hn2 hr2
    rw [request, requestLoop_retryable_exhausts c t2 action st2 rb2 hall hn2 hr2
      (c.maxRetries - 0).toNat 0 0 rfl, hr2]
    norm_num
  · intro parsed s hlook hne
    simp only [responseMessage, stringField, hlook]
    rw [if_neg hne]
  · intro parsed hcase
    rcases hcase with h | h | ⟨v, hv, hvs⟩
    · simp [responseMessage, stringField, h]
    · simp [responseMessage, stringField, h]
    · simp only [responseMessage, stringField, hv]
      cases v with
      | str s => exact absurd rfl (hvs s)
      | null => simp
      | bool b => simp
      | num q => simp
      | arr xs => simp
      | obj fs => simp

/-- Witness for C2: a 404 response fails immediately with the NotFound
classification, status 404, not retryable, after exactly one request; and a
persistent 429 exhausts the budget of 2 and returns the RateLimited error
with retryable true after 3 requests. -/
theorem c2_status_classification_witness :
    (request cEx tEx404 "ping" "/ping/abc123de" [] =
      (Outcome.apiError (mapError 404).1 (some 404) false
        (responseMessage (safeJSON (some (Jval.obj [])))), 1)) ∧
    (request cEx tEx429 "ping" "/ping/abc123de" [] =
      (Outcome.apiError (mapError 429).1 (some 429) true
        (responseMessage (safeJSON (some (Jval.obj [])))), 3)) :=
  ⟨(c2_status_classification cEx tEx404 "ping" "/ping/abc123de" []
      404 (some (Jval.obj [])) rfl (by decide) (by decide)).2.2.2.2.2.1,
    (c2_status_classification cEx tEx404 "ping" "/ping/abc123de" []
      404 (some (Jval.obj [])) rfl (by decide) (by decide)).2.2.2.2.2.2.1
      tEx429 429 (some (Jval.obj [])) (fun k => rfl) (by decide) (by decide)⟩

/-- C3 (amended): for every client whose stored max retries value is ≤ 0, no
retry is ever attempted — the first transport failure or first retryable
HTTP failure is returned immediately after a single transport invocation.
(The public constructor maps a configured 0 to the default 2, so such a
client arises from the constructor only through a negative configured
value.) -/
theorem c3_nonpositive_budget_no_retry (c : PingClient)
    (t : ℕ → TransportResult) (action path : String)
    (body : List (String × List UInt8)) (hm : c.maxRetries ≤ 0) :
    (∀ e, t 0 = TransportResult.failure e →
      request c t action path body =
        (Outcome.apiError ApiErrorCode.CodeNetwork none true e, 1)) ∧
    (∀ (st : ℤ) (rb : Option Jval), t 0 = TransportResult.response st rb →
      ¬ (200 ≤ st ∧ st < 300) →
      request c t action path body =
        (Outcome.apiError (mapError st).1 (some st) (mapError st).2
          (responseMessage (safeJSON rb)), 1)) := by
  constructor
  · intro e he
    rw [request, requestLoop_fail_stop c t action 0 0 e he (by omega)]
  · intro st rb hres hn
    rw [request, requestLoop_http_stop c t action 0 0 st rb hres hn
      (fun hh => absurd hh.2 (by omega))]

/-- A client whose stored max retries is negative (obtainable from
`NewPingClient` with a configured `MaxRetries = -1`). -/
def cNeg : PingClient :=
  ⟨"https://cronbeats.io", "abc123de", 5000, -1, 250, 100, "cronbeats-go-sdk/0.1.0"⟩

/-- Witness for the amended C3: with a negative stored budget the first
transport failure is returned after one invocation. -/
theorem c3_nonpositive_budget_no_retry_witness :
    request cNeg (fun _ => TransportResult.failure "dns failure") "ping"
      "/ping/abc123de" [] =
      (Outcome.apiError ApiErrorCode.CodeNetwork none true "dns failure", 1) :=
  (c3_nonpositive_budget_no_retry cNeg
    (fun _ => TransportResult.failure "dns failure") "ping" "/ping/abc123de" []
    (by decide)).1 "dns failure" rfl

/-- Counterexample to C3 as stated: constructing a client with a max retries
configuration of 0 yields the default budget 2 (see `defaultInt`), and
against a persistently failing transport the call invokes the transport 3
times — not once, and retries are attempted. -/
theorem c3_counterexample :
    NewPingClient "abc123de" (some { maxRetries := 0 }) = Except.ok cEx ∧
    cEx.maxRetries = 2 ∧
    (request cEx (fun _ => TransportResult.failure "connection refused") "ping"
      "/ping/abc123de" []).2 = 3 := by
  refine ⟨by rfl, by rfl, ?_⟩
  rw [request]
  rw [requestLoop_fail_retry cEx _ "ping" 0 0 "connection refused" rfl (by decide)]
  rw [requestLoop_fail_retry cEx _ "ping" (0 + 1) (0 + 1) "connection refused" rfl
    (by decide)]
  rw [requestLoop_fail_stop cEx _ "ping" (0 + 1 + 1) (0 + 1 + 1) "connection refused"
    rfl (by decide)]

/-- C4: the wait before the retry with 1-based attempt number `a` equals
`backoffBase * 2 ^ (a - 1)` milliseconds plus a jitter in `[0, jitterBound]`
milliseconds drawn from the generator; when the jitter bound is 0 the jitter
term is exactly 0 and the wait is deterministic. -/
theorem c4_backoff_formula (c : PingClient) (attempt : ℤ) (randIntn : ℕ → ℕ)
    (hA : 1 ≤ attempt) (hj : 0 ≤ c.retryJitterMs)
    (hrand : ∀ n, 0 < n → randIntn n < n) :
    (∃ j : ℤ, 0 ≤ j ∧ j ≤ c.retryJitterMs ∧
      sleepWithBackoff c attempt randIntn =
        c.retryBackoffMs * 2 ^ (attempt - 1).toNat + j) ∧
    (c.retryJitterMs = 0 →
      sleepWithBackoff c attempt randIntn =
        c.retryBackoffMs * 2 ^ (attempt - 1).toNat) := by
  have hmax : maxInt 0 (attempt - 1) = attempt - 1 := by
    simp only [maxInt]
    rw [if_neg (by omega)]
  constructor
  · by_cases hpos : c.retryJitterMs > 0
    · refine ⟨(randIntn (c.retryJitterMs + 1).toNat : ℤ), by positivity, ?_, ?_⟩
      · have hlt := hrand (c.retryJitterMs + 1).toNat (by omega)
        omega
      · simp only [sleepWithBackoff, hmax]
        rw [if_pos hpos]
    · refine ⟨0, le_refl 0, hj, ?_⟩
      simp only [sleepWithBackoff, hmax]
      rw [if_neg hpos, add_zero]
  · intro hz
    simp only [sleepWithBackoff, hmax]
    rw [if_neg (by omega), add_zero]

/-- A client with jitter bound 0 (not obtainable from the public
constructor; exercises the deterministic branch of the backoff). -/
def cJ0 : PingClient :=
  ⟨"https://cronbeats.io", "abc123de", 5000, 2, 250, 0, "cronbeats-go-sdk/0.1.0"⟩

/-- Witness for C4: with jitter bound 0 the first retry waits exactly
`250 * 2 ^ 0` milliseconds. -/
theorem c4_backoff_formula_witness :
    sleepWithBackoff cJ0 1 (fun _ => 0) =
      cJ0.retryBackoffMs * 2 ^ ((1 : ℤ) - 1).toNat :=
  (c4_backoff_formula cJ0 1 (fun _ => 0) (by decide) (by decide)
    (fun n hn => hn)).2 rfl

/-- A sample transport answering 200 with a body whose top-level JSON value
is a string, not an object. -/
def tExBadJson : ℕ → TransportResult := fun _ =>
  TransportResult.response 200 (some (Jval.str "oops"))

/-- C5: a 2xx response whose body is not parseable as JSON, or whose
top-level JSON value is not an object, still returns a success result with
`ok = true`: the decoded body is replaced by the substitute object
`message ↦ "Invalid JSON response"` and normalization proceeds on it. -/
theorem c5_invalid_json_still_success (c : PingClient) (t : ℕ → TransportResult)
    (action path : String) (body : List (String × List UInt8))
    (st : ℤ) (rb : Option Jval)
    (hres : t 0 = TransportResult.response st rb)
    (h1 : 200 ≤ st) (h2 : st < 300)
    (hbad : rb = none ∨ ∃ v, rb = some v ∧ ∀ fields, v ≠ Jval.obj fields) :
    safeJSON rb = [("message", Jval.str "Invalid JSON response")] ∧
    request c t action path body =
      (Outcome.success (normalizeSuccess c action
        [("message", Jval.str "Invalid JSON response")]), 1) ∧
    (normalizeSuccess c action
      [("message", Jval.str "Invalid JSON response")]).ok = true := by
  have hsub : safeJSON rb = [("message", Jval.str "Invalid JSON response")] := by
    rcases hbad with h | ⟨v, hv, hne⟩
    · rw [h]; rfl
    · rw [hv]
      cases v with
      | obj fs => exact absurd rfl (hne fs)
      | null => rfl
      | bool b => rfl
      | num q => rfl
      | str s => rfl
      | arr xs => rfl
  refine ⟨hsub, ?_, rfl⟩
  rw [request, requestLoop_success c t action 0 0 st rb hres h1 h2, hsub]

/-- Witness for C5: a 200 response whose top-level JSON value is the string
"oops" still succeeds, on the substituted body. -/
theorem c5_invalid_json_still_success_witness :
    request cEx tExBadJson "ping" "/ping/abc123de" [] =
      (Outcome.success (normalizeSuccess cEx "ping"
        [("message", Jval.str "Invalid JSON response")]), 1) :=
  (c5_invalid_json_still_success cEx tExBadJson "ping" "/ping/abc123de" []
    200 (some (Jval.str "oops")) rfl (by decide) (by decide)
    (Or.inr ⟨Jval.str "oops", rfl, fun _ h => Jval.noConfusion h⟩)).2.1

/-- C7: client construction succeeds iff the job key is exactly 8 characters
drawn from [a-zA-Z0-9]; every non-matching key fails with the Validation
error; and the check happens only at construction — the request pipeline
never returns a validation error, for any client whatsoever. -/
theorem c7_jobkey_validated_at_construction (jobKey : String)
    (opts : Option Options) :
    ((∃ c, NewPingClient jobKey opts = Except.ok c) ↔
      (jobKey.toList.length = 8 ∧ ∀ ch ∈ jobKey.toList,
        ('a' ≤ ch ∧ ch ≤ 'z') ∨ ('A' ≤ ch ∧ ch ≤ 'Z') ∨ ('0' ≤ ch ∧ ch ≤ '9'))) ∧
    (¬ (jobKey.toList.length = 8 ∧ ∀ ch ∈ jobKey.toList,
        ('a' ≤ ch ∧ ch ≤ 'z') ∨ ('A' ≤ ch ∧ ch ≤ 'Z') ∨ ('0' ≤ ch ∧ ch ≤ '9')) →
      NewPingClient jobKey opts =
        Except.error "jobKey must be exactly 8 Base62 characters.") ∧
    (∀ (c : PingClient) (t : ℕ → TransportResult) (action path : String)
        (body : List (String × List UInt8)) (m : String),
      (request c t action path body).1 ≠ Outcome.validationError m) := by
  have hiff : jobKeyMatches jobKey = true ↔
      (jobKey.toList.length = 8 ∧ ∀ ch ∈ jobKey.toList,
        ('a' ≤ ch ∧ ch ≤ 'z') ∨ ('A' ≤ ch ∧ ch ≤ 'Z') ∨ ('0' ≤ ch ∧ ch ≤ '9')) := by
    simp [jobKeyMatches, jobKeyChar, List.all_eq_true, or_assoc]
  refine ⟨?_, ?_, ?_⟩
  · rw [← hiff]
    by_cases hk : jobKeyMatches jobKey = true
    · simp [NewPingClient, hk]
    · simp [NewPingClient, hk]
  · intro h
    rw [← hiff] at h
    simp [NewPingClient, h]
  · intro c t action path body m
    rw [request]
    exact requestLoop_no_validation c t action (c.maxRetries - 0).toNat 0 0 le_rfl m

/-- Witness for C7: a short key fails construction with the Validation
error message. -/
theorem c7_jobkey_validated_at_construction_witness :
    NewPingClient "bad" none =
      Except.error "jobKey must be exactly 8 Base62 characters." :=
  (c7_jobkey_validated_at_construction "bad" none).2.1 (by decide)

/-- C8: an `End` call whose status — trimmed, lowercased, with the empty
string defaulting to "success" — is outside success/fail, and a `Progress`
call with a supplied negative sequence or with an input of an unsupported
shape, return a Validation error and perform zero transport invocations. -/
theorem c8_validation_before_network (c : PingClient)
    (t : ℕ → TransportResult) (message : List String) :
    (∀ status : String,
      (if goToLower (goTrimSpace status) = "" then "success"
        else goToLower (goTrimSpace status)) ≠ "success" →
      (if goToLower (goTrimSpace status) = "" then "success"
        else goToLower (goTrimSpace status)) ≠ "fail" →
      End c t status =
        (Outcome.validationError "Status must be \"success\" or \"fail\".", 0)) ∧
    (∀ v : ℤ, v < 0 →
      Progress c t (ProgressInput.intSeq v) message =
        (Outcome.validationError "Progress seq must be a non-negative integer.",
          0)) ∧
    (∀ (po : ProgressOptions) (s : ℤ), po.seq = some s → s < 0 →
      Progress c t (ProgressInput.options po) message =
        (Outcome.validationError "Progress seq must be a non-negative integer.",
          0)) ∧
    (∀ (po : ProgressOptions) (s : ℤ), po.seq = some s → s < 0 →
      Progress c t (ProgressInput.optionsPtr (some po)) message =
        (Outcome.validationError "Progress seq must be a non-negative integer.",
          0)) ∧
    Progress c t ProgressInput.otherShape message =
      (Outcome.validationError "Progress input must be int, ProgressOptions, or nil.",
        0) := by
  refine ⟨?_, ?_, ?_, ?_, rfl⟩
  · intro status h1 h2
    simp only [End]
    rw [if_pos ⟨h1, h2⟩]
  · intro v hv
    simp [Progress, progressPlan, hv]
  · intro po s hpo hv
    simp [Progress, progressPlan, hpo, hv]
  · intro po s hpo hv
    simp [Progress, progressPlan, hpo, hv]

/-- Witness for C8: `End` with status "BOGUS" and `Progress` with a negative
sequence both fail with a Validation error and zero transport calls. -/
theorem c8_validation_before_network_witness :
    End cEx (fun _ => TransportResult.failure "x") "BOGUS" =
      (Outcome.validationError "Status must be \"success\" or \"fail\".", 0) ∧
    Progress cEx (fun _ => TransportResult.failure "x")
      (ProgressInput.intSeq (-3)) [] =
      (Outcome.validationError "Progress seq must be a non-negative integer.",
        0) :=
  ⟨(c8_validation_before_network cEx (fun _ => TransportResult.failure "x")
      []).1 "BOGUS" (by decide) (by decide),
    (c8_validation_before_network cEx (fun _ => TransportResult.failure "x")
      []).2.1 (-3) (by decide)⟩

/-- C9 (amended): Go strings are byte strings, so the 255 limit applies to
the UTF-8 byte length of the message: a message longer than 255 bytes is
transmitted truncated to its first 255 bytes, and a message of at most 255
bytes is transmitted unchanged. (On ASCII messages bytes coincide with
characters.) -/
theorem c9_message_truncation (jobKey : String) (msg : String) :
    ((goBytes msg).length > 255 →
      progressPlan jobKey ProgressInput.noInput [msg] =
        ProgressCall.send ("/ping/" ++ jobKey ++ "/progress")
          [("message", (goBytes msg).take 255)] ∧
      ((goBytes msg).take 255).length = 255) ∧
    ((goBytes msg).length ≤ 255 →
      progressPlan jobKey ProgressInput.noInput [msg] =
        ProgressCall.send ("/ping/" ++ jobKey ++ "/progress")
          [("message", goBytes msg)]) := by
  constructor
  · intro h
    constructor
    · simp [progressPlan, truncated255, h]
    · rw [List.length_take]
      omega
  · intro h
    simp [progressPlan, truncated255, show ¬ (goBytes msg).length > 255 by omega]

/-- A 256-byte ASCII message. -/
def longMsg : String := String.mk (List.replicate 256 'a')

/-- Witness for the amended C9: a 256-byte ASCII message is transmitted as
its first 255 bytes. -/
theorem c9_message_truncation_witness :
    progressPlan "abc123de" ProgressInput.noInput [longMsg] =
      ProgressCall.send ("/ping/" ++ "abc123de" ++ "/progress")
        [("message", (goBytes longMsg).take 255)] ∧
    ((goBytes longMsg).take 255).length = 255 :=
  (c9_message_truncation "abc123de" longMsg).1 (by
    set_option maxRecDepth 100000 in decide)

/-- A 128-character message of two-byte characters (256 UTF-8 bytes). -/
def accentMsg : String := String.mk (List.replicate 128 'é')

/-- Counterexample to C9 as stated: a message of 128 characters — well under
255 characters — is nevertheless not sent unchanged, because the Go length
test and slice operate on the 256 UTF-8 bytes of the message: the
transmitted bytes are the first 255 bytes, not the whole message. -/
theorem c9_counterexample :
    accentMsg.toList.length = 128 ∧
    progressPlan "abc123de" ProgressInput.noInput [accentMsg] =
      ProgressCall.send ("/ping/" ++ "abc123de" ++ "/progress")
        [("message", (goBytes accentMsg).take 255)] ∧
    (goBytes accentMsg).take 255 ≠ goBytes accentMsg := by
  refine ⟨by set_option maxRecDepth 100000 in decide, ?_, ?_⟩
  · set_option maxRecDepth 100000 in decide
  · set_option maxRecDepth 100000 in decide

/-- `defaultInt` keeps a supplied nonzero value, hence with a nonzero
fallback it never returns 0. -/
theorem defaultInt_ne_zero (v : ℤ) (f : ℤ) (hf : f ≠ 0) : defaultInt v f ≠ 0 := by
  rw [defaultInt]
  split_ifs with h
  · exact hf
  · exact h

/-- The numeric fields of a successfully constructed client are the
`defaultInt`-filtered option fields. -/
theorem NewPingClient_ok_fields (jobKey : String) (o : Options) (c : PingClient)
    (h : NewPingClient jobKey (some o) = Except.ok c) :
    c.timeoutMs = defaultInt o.timeoutMs 5000 ∧
    c.maxRetries = defaultInt o.maxRetries 2 ∧
    c.retryBackoffMs = defaultInt o.retryBackoffMs 250 ∧
    c.retryJitterMs = defaultInt o.retryJitterMs 100 := by
  have hk : ¬ ¬ jobKeyMatches jobKey = true := by
    intro hk
    rw [NewPingClient.eq_def, if_pos hk] at h
    exact Except.noConfusion h
  rw [NewPingClient.eq_def, if_neg hk] at h
  injection h with h2
  refine ⟨?_, ?_, ?_, ?_⟩ <;> rw [← h2]

/-- C10: a zero value for TimeoutMs, MaxRetries, RetryBackoffMs or
RetryJitterMs in the options silently becomes the documented default (5000,
2, 250, 100); consequently no client built through the public constructor
has a retry budget of 0 or a jitter bound of 0. -/
theorem c10_zero_config_means_default (jobKey : String) (optsQ : Option Options)
    (c : PingClient) (h : NewPingClient jobKey optsQ = Except.ok c) :
    ((optsQ.getD {}).timeoutMs = 0 → c.timeoutMs = 5000) ∧
    ((optsQ.getD {}).maxRetries = 0 → c.maxRetries = 2) ∧
    ((optsQ.getD {}).retryBackoffMs = 0 → c.retryBackoffMs = 250) ∧
    ((optsQ.getD {}).retryJitterMs = 0 → c.retryJitterMs = 100) ∧
    c.maxRetries ≠ 0 ∧ c.retryJitterMs ≠ 0 := by
  have hfields : c.timeoutMs = defaultInt (optsQ.getD {}).timeoutMs 5000 ∧
      c.maxRetries = defaultInt (optsQ.getD {}).maxRetries 2 ∧
      c.retryBackoffMs = defaultInt (optsQ.getD {}).retryBackoffMs 250 ∧
      c.retryJitterMs = defaultInt (optsQ.getD {}).retryJitterMs 100 := by
    cases optsQ with
    | none =>
      have hsome : NewPingClient jobKey (some {}) = Except.ok c := h
      simpa using NewPingClient_ok_fields jobKey {} c hsome
    | some o =>
      simpa using NewPingClient_ok_fields jobKey o c h
  obtain ⟨h1, h2, h3, h4⟩ := hfields
  refine ⟨fun hz => ?_, fun hz => ?_, fun hz => ?_, fun hz => ?_, ?_, ?_⟩
  · rw [h1, hz]; rfl
  · rw [h2, hz]; rfl
  · rw [h3, hz]; rfl
  · rw [h4, hz]; rfl
  · rw [h2]; exact defaultInt_ne_zero _ 2 (by norm_num)
  · rw [h4]; exact defaultInt_ne_zero _ 100 (by norm_num)

/-- Witness for C10: the all-zero options yield the defaults, and the
resulting client has a nonzero budget and jitter bound. -/
theorem c10_zero_config_means_default_witness :
    cEx.maxRetries = 2 ∧ cEx.timeoutMs = 5000 ∧ cEx.retryBackoffMs = 250 ∧
    cEx.retryJitterMs = 100 ∧ cEx.maxRetries ≠ 0 ∧ cEx.retryJitterMs ≠ 0 :=
  let h := c10_zero_config_means_default "abc123de" (some {}) cEx (by rfl)
  ⟨h.2.1 rfl, h.1 rfl, h.2.2.1 rfl, h.2.2.2.1 rfl, h.2.2.2.2.1, h.2.2.2.2.2⟩

end Cronbeats
